import Mathlib

/-!
Shallow embedding of `cli_clock.py` (repository `cli-clock`): a terminal
clock / stopwatch / countdown / Pomodoro utility.  Pure helpers
(`format_time`, `parse_duration`, the glyph renderer) are translated as
Lean functions; the tick loops (`countdown_timer`, `stopwatch_mode`,
`pomodoro_mode`) are translated as explicit state-passing runs over a
finite schedule of polled keys / timestamps; `main`'s argument dispatch
is translated as a function from a parsed-argument record to an outcome
record (exit code, whether an error line was printed, which mode loop
ran).  Timestamps (`time.time()`) are modelled as integers, one reading
per loop iteration; Python floats appear only in the countdown progress
fraction, modelled as `ℚ` (the fractions involved are exact).
-/

namespace CliClock

/-- Python's two-digit zero-pad format (format spec `02d`) used in
`format_time`: the decimal representation of `n`, left-padded with `0`
to width 2. -/
def pad2 (n : Nat) : String :=
  if n < 10 then "0" ++ Nat.repr n else Nat.repr n

/-- Function `format_time` from `cli_clock.py` (lines 234-243): seconds
to `HH:MM:SS` when `hours > 0`, else `MM:SS`. -/
def format_time (seconds : Nat) : String :=
  let hours := seconds / 3600
  let minutes := (seconds % 3600) / 60
  let secs := seconds % 60
  if hours > 0 then
    pad2 hours ++ ":" ++ pad2 minutes ++ ":" ++ pad2 secs
  else
    pad2 minutes ++ ":" ++ pad2 secs

/-- Python's `str.split(sep)` for a one-character separator, on a list
of characters: always returns at least one (possibly empty) part, keeps
empty parts. -/
def splitOnChar (sep : Char) : List Char → List (List Char)
  | [] => [[]]
  | c :: rest =>
    if c = sep then [] :: splitOnChar sep rest
    else
      match splitOnChar sep rest with
      | [] => [[c]]
      | p :: ps => (c :: p) :: ps

/-- Value of a list of decimal digit characters (most significant
first). -/
def digitsVal (l : List Char) : Nat :=
  l.foldl (fun a c => 10 * a + (c.toNat - 48)) 0

/-- Decimal digit-run parse: `some` of the value when the list is a
non-empty run of ASCII digits, else `none`. -/
def digitsVal? (l : List Char) : Option Nat :=
  if l ≠ [] ∧ l.all Char.isDigit then some (digitsVal l) else none

/-- Model of Python's `int(s)` on a string, restricted to decimal
literals: an optional single `-` or `+` sign followed by a non-empty
digit run parses to the signed value; everything else raises
`ValueError`, modelled as `none`.  (Python additionally tolerates
surrounding whitespace and `_` digit grouping; those inputs are outside
this model.) -/
def pyIntParse? (l : List Char) : Option Int :=
  match l with
  | [] => none
  | c :: rest =>
    if c = '-' then (digitsVal? rest).map (fun n => -(n : Int))
    else if c = '+' then (digitsVal? rest).map (fun n => (n : Int))
    else (digitsVal? l).map (fun n => (n : Int))

/-- Function `parse_duration` from `cli_clock.py` (lines 246-270): split on `:`;
1 part = seconds, 2 parts = `M:S`, 3 parts = `H:M:S`; any other part
count or any failing `int(...)` raises `ValueError`, modelled as
`none`. -/
def parse_duration (s : List Char) : Option Int :=
  match splitOnChar ':' s with
  | [a] => pyIntParse? a
  | [a, b] => do
    let x ← pyIntParse? a
    let y ← pyIntParse? b
    pure (x * 60 + y)
  | [a, b, c] => do
    let x ← pyIntParse? a
    let y ← pyIntParse? b
    let z ← pyIntParse? c
    pure (x * 3600 + y * 60 + z)
  | _ => none

/-- The Pomodoro argument parse inside `main` (lines 548-556):
`work_min, break_min = map(int, args.pomodoro.split(','))` (exactly two
`int`-parseable parts, otherwise `ValueError`), then
`if work_min <= 0 or break_min <= 0: raise ValueError`. -/
def parsePomodoroArg (s : List Char) : Option (Int × Int) :=
  match splitOnChar ',' s with
  | [a, b] =>
    match pyIntParse? a, pyIntParse? b with
    | some w, some bk => if w ≤ 0 ∨ bk ≤ 0 then none else some (w, bk)
    | _, _ => none
  | _ => none

/-- The guarded progress fraction of `countdown_timer` (line 408):
`(total_seconds - remaining) / total_seconds if total_seconds > 0 else
1.0`.  The division is performed only under the `total > 0` guard. -/
def progress (total remaining : Int) : ℚ :=
  if total > 0 then ((total : ℚ) - (remaining : ℚ)) / (total : ℚ) else 1

/-- One run of the `while remaining >= 0` loop of `countdown_timer`
(lines 376-418), driven by a finite schedule of polled keys (one
`get_key()` result per iteration).  Each executed iteration first checks
the loop guard, then toggles `paused` on `'q'`, renders
`(remaining, paused, progress)`, and decrements `remaining` when not
paused.  Returns the list of rendered frames and whether the loop has
exited normally (guard failed) within the schedule — `true` corresponds
to the function returning `False` ("completed, not interrupted"). -/
def countdownRun (total : Int) : List (Option Char) → Int → Bool → List (Int × Bool × ℚ) × Bool
  | [], r, _ => ([], decide (r < 0))
  | k :: rest, r, p =>
    if r < 0 then ([], true)
    else
      let p' := if k = some 'q' then !p else p
      let res := countdownRun total rest (if p' then r else r - 1) p'
      ((r, p', progress total r) :: res.fst, res.snd)

/-- Relation between consecutive rendered countdown frames: the next
frame's remaining value is the current one decremented exactly when the
current frame is not paused. -/
def stepRel (a b : Int × Bool × ℚ) : Prop :=
  b.1 = if a.2.1 then a.1 else a.1 - 1

/-- State of `stopwatch_mode` (lines 303-358): `start_time`, `elapsed`,
`paused`, `pause_start`.  Timestamps are integers. -/
structure SwState where
  startTime : Int
  elapsed : Int
  paused : Bool
  pauseStart : Int
deriving DecidableEq, Repr

/-- One iteration of the `stopwatch_mode` loop body (lines 318-334),
given the polled key and the current `time.time()` reading: `'q'`
toggles `paused` (recording `pause_start` on pause, shifting
`start_time` forward by the pause duration on resume), `'r'` resets,
and while not paused `elapsed = int(now - start_time)` (exact on
integer timestamps). -/
def stopwatchTick (s : SwState) (key : Option Char) (now : Int) : SwState :=
  let s1 :=
    if key = some 'q' then
      if s.paused then { s with paused := false, startTime := s.startTime + (now - s.pauseStart) }
      else { s with paused := true, pauseStart := now }
    else if key = some 'r' then { s with startTime := now, elapsed := 0, paused := false }
    else s
  if s1.paused then s1 else { s1 with elapsed := now - s1.startTime }

/-- Iterated `stopwatchTick` over a schedule of (key, timestamp) pairs,
recording the `elapsed` value displayed by each iteration's
`print_time(format_time(elapsed), ...)`. -/
def swRun (s : SwState) : List (Option Char × Int) → List Int
  | [] => []
  | (k, t) :: rest =>
    let s' := stopwatchTick s k t
    s'.elapsed :: swRun s' rest

/-- Observable events of `pomodoro_mode` (lines 421-463).  A
`countdownCall session isBreak totalSeconds interrupted` event stands
for a `countdown_timer` call with label
`"Session S - Work"` / `"Session S - Break"` and its returned
interrupted flag; `sleep2` stands for `time.sleep(2)`. -/
inductive PomEvent where
  | clear : PomEvent
  | countdownCall : Nat → Bool → Int → Bool → PomEvent
  | bell : PomEvent
  | sleep2 : PomEvent
deriving DecidableEq, Repr

/-- The bell events emitted by `if config.bell_enabled:
TerminalUtils.ring_bell()`. -/
def bellEvts (bell : Bool) : List PomEvent := if bell then [.bell] else []

/-- Whether an event is a Break-phase `countdown_timer` call. -/
def isBreakCall : PomEvent → Bool
  | .countdownCall _ isBreak _ _ => isBreak
  | _ => false

/-- The `while True` loop of `pomodoro_mode` (lines 425-461), driven by
a finite schedule giving the interrupted-flag returned by each
successive `countdown_timer` call.  Each iteration clears the screen,
runs the Work countdown (breaking out of the loop if it was
interrupted), rings the bell if enabled, sleeps 2 seconds, clears,
runs the Break countdown (breaking out if interrupted), rings the bell
if enabled, sleeps 2 seconds, increments `session`, and repeats.
Returns the event trace and the final `session` counter; an exhausted
schedule stops the model mid-loop. -/
def pomodoroRun (w bk : Int) (bell : Bool) : Nat → List Bool → List PomEvent × Nat
  | s, [] => ([], s)
  | s, [i1] =>
    if i1 then ([.clear, .countdownCall s false (w * 60) true], s)
    else ([.clear, .countdownCall s false (w * 60) false] ++ bellEvts bell ++ [.sleep2], s)
  | s, i1 :: i2 :: rest =>
    if i1 then ([.clear, .countdownCall s false (w * 60) true], s)
    else
      let pre := [.clear, .countdownCall s false (w * 60) false] ++ bellEvts bell ++ [.sleep2]
      if i2 then (pre ++ [.clear, .countdownCall s true (bk * 60) true], s)
      else
        let res := pomodoroRun w bk bell (s + 1) rest
        (pre ++ [.clear, .countdownCall s true (bk * 60) false] ++ bellEvts bell ++ [.sleep2] ++ res.1, res.2)

/-- Display height constants for cursor positioning (lines 102-105). -/
def DISPLAY_LINES_TIME_ONLY : Nat := 5

/-- See `DISPLAY_LINES_TIME_ONLY`. -/
def DISPLAY_LINES_WITH_LABEL : Nat := 7

/-- See `DISPLAY_LINES_TIME_ONLY`. -/
def DISPLAY_LINES_FOCUS_WITH_BAR : Nat := 8

/-- See `DISPLAY_LINES_TIME_ONLY`. -/
def DISPLAY_LINES_WITH_BAR : Nat := 9

/-- Newlines written by `Display.print_time` (lines 149-174): an
initial `print()` unless `move_back`, four glyph rows, and a trailing
`print()`. -/
def printTimeNewlines (moveBack : Bool) : Nat :=
  (if moveBack then 0 else 1) + 4 + 1

/-- Newlines written by `Display.print_label` (lines 176-181): one
`print` whose payload ends in an explicit `\n`, so two newlines. -/
def printLabelNewlines : Nat := 2

/-- Newlines written by `Display.print_progress_bar` (lines 183-199):
the bar `print` plus a trailing `print()`. -/
def printProgressBarNewlines : Nat := 2

/-- Terminal lines one frame of the `stopwatch_mode` loop writes
(lines 340-353): `print_time` with `move_back=True`, then either
`print_label` (5 + 2 lines, normal mode) or — in focus mode — a
pause-text `print` ending in `\n` when paused (5 + 2) or a bare
`print()` when running (5 + 1). -/
def stopwatchFrameNewlines (focus paused : Bool) : Nat :=
  printTimeNewlines true +
    (if !focus then printLabelNewlines else if paused then 2 else 1)

/-- The cursor move-up amount of `stopwatch_mode` (line 315):
`lines_to_move = DISPLAY_LINES_WITH_LABEL`, unconditionally. -/
def stopwatchLinesToMove : Nat := DISPLAY_LINES_WITH_LABEL

/-- Terminal lines one frame of the `clock_mode` loop writes
(lines 295-298): `print_time` with `move_back=True`, plus
`print_label` when not in focus mode. -/
def clockFrameNewlines (focus : Bool) : Nat :=
  printTimeNewlines true + (if focus then 0 else printLabelNewlines)

/-- The cursor move-up amount of `clock_mode` (line 286). -/
def clockLinesToMove (focus : Bool) : Nat :=
  if focus then DISPLAY_LINES_TIME_ONLY else DISPLAY_LINES_WITH_LABEL

/-- Terminal lines one frame of the `countdown_timer` loop writes
(lines 393-410): `print_time` with `move_back=True`, then
`print_label` (2 lines) in normal mode or a single one-newline `print`
in focus mode (both the paused and the running branch end in exactly
one newline), then the progress bar (2 lines). -/
def countdownFrameNewlines (focus _paused : Bool) : Nat :=
  printTimeNewlines true + (if !focus then printLabelNewlines else 1) +
    printProgressBarNewlines

/-- The cursor move-up amount of `countdown_timer` (line 380). -/
def countdownLinesToMove (focus : Bool) : Nat :=
  if focus then DISPLAY_LINES_FOCUS_WITH_BAR else DISPLAY_LINES_WITH_BAR

/-- One 4-row ASCII-art glyph.  `Display.print_time` indexes every
table entry at rows 0..3, so a glyph is a record of exactly four row
strings. -/
structure Glyph where
  r0 : String
  r1 : String
  r2 : String
  r3 : String
deriving DecidableEq, Repr

/-- The `SEGMENTS` table (lines 70-83): regular-style glyphs for the
digits, `':'` and `' '`. -/
def segTable : List (Char × Glyph) :=
  [('0', ⟨"┌───┐", "│   │", "│   │", "└───┘"⟩),
   ('1', ⟨"    ┐", "    │", "    │", "    ┴"⟩),
   ('2', ⟨"┌───┐", "    │", "┌───┘", "└───┘"⟩),
   ('3', ⟨"┌───┐", "    │", "  ──┤", "└───┘"⟩),
   ('4', ⟨"┐   ┐", "└───┤", "    │", "    ┘"⟩),
   ('5', ⟨"┌───┐", "└───┐", "┌   │", "└───┘"⟩),
   ('6', ⟨"┌───┐", "├───┐", "│   │", "└───┘"⟩),
   ('7', ⟨"┌───┐", "    │", "    │", "    ┘"⟩),
   ('8', ⟨"┌───┐", "├───┤", "│   │", "└───┘"⟩),
   ('9', ⟨"┌───┐", "└───┤", "    │", "    ┘"⟩),
   (':', ⟨" ", "●", "●", " "⟩),
   (' ', ⟨"     ", "     ", "     ", "     "⟩)]

/-- The `SEGMENTS_BOLD` table (lines 86-99). -/
def segTableBold : List (Char × Glyph) :=
  [('0', ⟨"╔═════╗", "║     ║", "║     ║", "╚═════╝"⟩),
   ('1', ⟨"      ║", "      ║", "      ║", "      ║"⟩),
   ('2', ⟨"╔═════╗", "      ║", "╔═════╝", "╚═════╝"⟩),
   ('3', ⟨"╔═════╗", "      ║", " ═════╣", "╚═════╝"⟩),
   ('4', ⟨"╗     ║", "║     ║", "╚═════╣", "      ║"⟩),
   ('5', ⟨"╔═════╗", "║      ", "╚═════╗", "╚═════╝"⟩),
   ('6', ⟨"╔═════╗", "║      ", "╠═════╗", "╚═════╝"⟩),
   ('7', ⟨"╔═════╗", "      ║", "      ║", "      ║"⟩),
   ('8', ⟨"╔═════╗", "║     ║", "╠═════╣", "╚═════╝"⟩),
   ('9', ⟨"╔═════╗", "║     ║", "╚═════╣", "╚═════╝"⟩),
   (':', ⟨" ", "●", "●", " "⟩),
   (' ', ⟨"       ", "       ", "       ", "       "⟩)]

/-- Dictionary lookup `segments[char]` / membership `char in segments`,
modelled on the association list. -/
def lookupSeg (t : List (Char × Glyph)) (c : Char) : Option Glyph :=
  (t.find? (fun p => p.1 == c)).map (fun p => p.2)

/-- Style selection `segments = SEGMENTS_BOLD if self.config.bold else
SEGMENTS` (line 157). -/
def segmentsFor (bold : Bool) : List (Char × Glyph) :=
  if bold then segTableBold else segTable

/-- The body of the character loop in `Display.print_time`
(lines 160-163): a known character appends its glyph row plus one
separator space to each of the four accumulated lines; an unknown
character leaves them unchanged. -/
def renderStep (t : List (Char × Glyph)) (acc : Glyph) (c : Char) : Glyph :=
  match lookupSeg t c with
  | some g => ⟨acc.r0 ++ g.r0 ++ " ", acc.r1 ++ g.r1 ++ " ",
               acc.r2 ++ g.r2 ++ " ", acc.r3 ++ g.r3 ++ " "⟩
  | none => acc

/-- The four `lines` built by `Display.print_time` for `time_str`
(lines 158-163), before centering and coloring. -/
def renderGlyphs (bold : Bool) (text : List Char) : Glyph :=
  text.foldl (renderStep (segmentsFor bold)) ⟨"", "", "", ""⟩

/-- Columns a character contributes to every rendered row: glyph width
plus one separator for a known character, nothing for an unknown
one. -/
def glyphContribution (t : List (Char × Glyph)) (c : Char) : Nat :=
  match lookupSeg t c with
  | some g => g.r0.length + 1
  | none => 0

/-- All four rows of a glyph block have the same width. -/
def rowsEqualWidth (g : Glyph) : Prop :=
  g.r0.length = g.r1.length ∧ g.r1.length = g.r2.length ∧
    g.r2.length = g.r3.length

instance (g : Glyph) : Decidable (rowsEqualWidth g) := by
  unfold rowsEqualWidth
  infer_instance

/-- The parsed argument record produced by `argparse` in `main`
(lines 516-533).  `pomodoro`/`timer` are `none` when the flag is
absent; a present flag carries its (possibly empty) string value. -/
structure ArgsModel where
  focus : Bool
  bold : Bool
  white : Bool
  black : Bool
  noBell : Bool
  stopwatch : Bool
  pomodoro : Option (List Char)
  timer : Option (List Char)
deriving DecidableEq, Repr

/-- Python truthiness of an optional string: `None` and `""` are
falsy. -/
def truthy : Option (List Char) → Bool
  | none => false
  | some s => !s.isEmpty

/-- Which mode loop `main` dispatches into. -/
inductive ModeLoop where
  | clock : ModeLoop
  | stopwatchLoop : ModeLoop
  | countdownLoop : Int → ModeLoop
  | pomodoroLoop : Int → Int → ModeLoop
deriving DecidableEq, Repr

/-- Outcome of a `main` invocation: the process exit code, whether a
one-line error message was printed, and which mode loop (if any) was
entered.  Mode loops themselves end by completion or interrupt, both
exiting 0. -/
structure MainOutcome where
  exitCode : Nat
  errorPrinted : Bool
  loopRun : Option ModeLoop
deriving DecidableEq, Repr

/-- The dispatch logic of `main` (lines 533-569) together with the
validation prologue of `timer_mode` (lines 466-476): conflicting
`--white`/`--black` prints an error and `sys.exit(1)`; a truthy
`--pomodoro` argument that fails `parsePomodoroArg` prints an error and
`sys.exit(1)`; a truthy `--timer` argument that fails `parse_duration`,
or parses to a non-positive total, makes `timer_mode` print an error
and `return` — `main` then falls through and the process exits 0. -/
def mainModel (a : ArgsModel) : MainOutcome :=
  if a.white && a.black then ⟨1, true, none⟩
  else if truthy a.pomodoro then
    match parsePomodoroArg (a.pomodoro.getD []) with
    | some (w, bk) => ⟨0, false, some (.pomodoroLoop w bk)⟩
    | none => ⟨1, true, none⟩
  else if a.stopwatch then ⟨0, false, some .stopwatchLoop⟩
  else if truthy a.timer then
    match parse_duration (a.timer.getD []) with
    | none => ⟨0, true, none⟩
    | some t => if t ≤ 0 then ⟨0, true, none⟩ else ⟨0, false, some (.countdownLoop t)⟩
  else ⟨0, false, some .clock⟩


/-! Helper lemmas about splitting and digit parsing. -/

theorem splitOnChar_ne_nil (sep : Char) (l : List Char) : splitOnChar sep l ≠ [] := by
  cases l with
  | nil => simp [splitOnChar]
  | cons c rest =>
    rw [splitOnChar]
    split
    · simp
    · rcases h : splitOnChar sep rest with _ | ⟨p, ps⟩ <;> simp [h]

theorem splitOnChar_append (sep : Char) (p rest : List Char) (hp : sep ∉ p) :
    splitOnChar sep (p ++ sep :: rest) = p :: splitOnChar sep rest := by
  induction p with
  | nil => simp [splitOnChar]
  | cons c cs ih =>
    have hc : ¬ c = sep := by
      intro h
      exact hp (by rw [h]; exact List.mem_cons_self _ _)
    have hcs : sep ∉ cs := fun h => hp (List.mem_cons_of_mem _ h)
    rw [List.cons_append, splitOnChar, if_neg hc, ih hcs]

theorem splitOnChar_single (sep : Char) (p : List Char) (hne : p ≠ [])
    (hp : sep ∉ p) : splitOnChar sep p = [p] := by
  induction p with
  | nil => exact absurd rfl hne
  | cons c cs ih =>
    have hc : ¬ c = sep := by
      intro h
      exact hp (by rw [h]; exact List.mem_cons_self _ _)
    have hcs : sep ∉ cs := fun h => hp (List.mem_cons_of_mem _ h)
    rw [splitOnChar, if_neg hc]
    cases cs with
    | nil => rfl
    | cons d ds => rw [ih (by simp) hcs]

theorem isDigit_ne_of_not_digit {c d : Char} (h : c.isDigit = true)
    (hd : d.isDigit = false) : c ≠ d := by
  intro e
  subst e
  rw [h] at hd
  exact Bool.noConfusion hd

theorem pyIntParse?_digits (p : List Char) (hne : p ≠ [])
    (hdig : p.all Char.isDigit = true) :
    pyIntParse? p = some ((digitsVal p : Nat) : Int) := by
  cases p with
  | nil => exact absurd rfl hne
  | cons c cs =>
    have hc : c.isDigit = true := by
      rw [List.all_cons, Bool.and_eq_true] at hdig
      exact hdig.1
    have h1 : ¬ c = '-' := isDigit_ne_of_not_digit hc (by decide)
    have h2 : ¬ c = '+' := isDigit_ne_of_not_digit hc (by decide)
    rw [pyIntParse?]
    rw [if_neg h1, if_neg h2, digitsVal?, if_pos ⟨by simp, hdig⟩]
    rfl

theorem digit_notMem_of_all {p : List Char} (hdig : p.all Char.isDigit = true)
    {d : Char} (hd : d.isDigit = false) : d ∉ p := by
  intro hmem
  rw [List.all_eq_true] at hdig
  have := hdig d hmem
  rw [this] at hd
  exact Bool.noConfusion hd

/-- C6: duration parsing succeeds exactly on strings splitting on `:`
into 1, 2 or 3 `int`-parseable parts, with values `S`, `M*60+S`,
`H*3600+M*60+S`; it round-trips on non-negative decimal parts, and
fails on non-numeric content, more than 3 parts, and empty input. -/
theorem claim6_parse_duration :
    (∀ s : List Char,
      (parse_duration s).isSome = true ↔
        ((splitOnChar ':' s).length = 1 ∨ (splitOnChar ':' s).length = 2 ∨
          (splitOnChar ':' s).length = 3) ∧
          ∀ p ∈ splitOnChar ':' s, (pyIntParse? p).isSome = true) ∧
    (∀ p1, p1 ≠ [] → p1.all Char.isDigit = true →
      parse_duration p1 = some (digitsVal p1)) ∧
    (∀ p1 p2, p1 ≠ [] → p1.all Char.isDigit = true →
      p2 ≠ [] → p2.all Char.isDigit = true →
      parse_duration (p1 ++ ':' :: p2) =
        some ((digitsVal p1 : Int) * 60 + (digitsVal p2 : Int))) ∧
    (∀ p1 p2 p3, p1 ≠ [] → p1.all Char.isDigit = true →
      p2 ≠ [] → p2.all Char.isDigit = true →
      p3 ≠ [] → p3.all Char.isDigit = true →
      parse_duration (p1 ++ ':' :: (p2 ++ ':' :: p3)) =
        some ((digitsVal p1 : Int) * 3600 + (digitsVal p2 : Int) * 60 +
          (digitsVal p3 : Int))) ∧
    parse_duration [] = none ∧
    parse_duration "abc".toList = none ∧
    parse_duration "1:2:3:4".toList = none := by
  have hcolon : (':' : Char).isDigit = false := by decide
  refine ⟨?_, ?_, ?_, ?_, by decide, by decide, by decide⟩
  · intro s
    rcases h : splitOnChar ':' s with _ | ⟨a, _ | ⟨b, _ | ⟨c, _ | ⟨d, tl⟩⟩⟩⟩
    · exact absurd h (splitOnChar_ne_nil ':' s)
    · simp [parse_duration, h]
    · cases hx : pyIntParse? a <;> cases hy : pyIntParse? b <;>
        simp [parse_duration, h, hx, hy]
    · cases hx : pyIntParse? a <;> cases hy : pyIntParse? b <;>
        cases hz : pyIntParse? c <;> simp [parse_duration, h, hx, hy, hz]
    · simp [parse_duration, h]
  · intro p1 h1 hd1
    have hs : splitOnChar ':' p1 = [p1] :=
      splitOnChar_single ':' p1 h1 (digit_notMem_of_all hd1 hcolon)
    simp [parse_duration, hs, pyIntParse?_digits p1 h1 hd1]
  · intro p1 p2 h1 hd1 h2 hd2
    have hs2 : splitOnChar ':' p2 = [p2] :=
      splitOnChar_single ':' p2 h2 (digit_notMem_of_all hd2 hcolon)
    have hs : splitOnChar ':' (p1 ++ ':' :: p2) = [p1, p2] := by
      rw [splitOnChar_append ':' p1 p2 (digit_notMem_of_all hd1 hcolon), hs2]
    simp [parse_duration, hs, pyIntParse?_digits p1 h1 hd1,
      pyIntParse?_digits p2 h2 hd2]
  · intro p1 p2 p3 h1 hd1 h2 hd2 h3 hd3
    have hs3 : splitOnChar ':' p3 = [p3] :=
      splitOnChar_single ':' p3 h3 (digit_notMem_of_all hd3 hcolon)
    have hs : splitOnChar ':' (p1 ++ ':' :: (p2 ++ ':' :: p3)) = [p1, p2, p3] := by
      rw [splitOnChar_append ':' p1 _ (digit_notMem_of_all hd1 hcolon),
        splitOnChar_append ':' p2 p3 (digit_notMem_of_all hd2 hcolon), hs3]
    simp [parse_duration, hs, pyIntParse?_digits p1 h1 hd1,
      pyIntParse?_digits p2 h2 hd2, pyIntParse?_digits p3 h3 hd3]

/-- Witness for C6: the 3-part round-trip at `"01:02:03"`, giving
`1*3600 + 2*60 + 3 = 3723` seconds. -/
theorem claim6_witness :
    parse_duration (['0', '1'] ++ ':' :: (['0', '2'] ++ ':' :: ['0', '3'])) =
      some 3723 :=
  (claim6_parse_duration.2.2.2.1 ['0', '1'] ['0', '2'] ['0', '3']
    (by decide) (by decide) (by decide) (by decide) (by decide) (by decide)).trans
    (by decide)

/-- C7: time formatting yields zero-padded `MM:SS` below one hour and
zero-padded `HH:MM:SS` from one hour on; `format(3599) = "59:59"` and
`format(3600) = "01:00:00"`. -/
theorem claim7_format_time : ∀ s : Nat,
    (s < 3600 → format_time s = pad2 (s / 60) ++ ":" ++ pad2 (s % 60)) ∧
    (3600 ≤ s → format_time s =
      pad2 (s / 3600) ++ ":" ++ pad2 (s % 3600 / 60) ++ ":" ++ pad2 (s % 60)) ∧
    format_time 3599 = "59:59" ∧ format_time 3600 = "01:00:00" := by
  intro s
  refine ⟨fun h => ?_, fun h => ?_, by decide, by decide⟩
  · have h0 : s / 3600 = 0 := Nat.div_eq_of_lt h
    have h1 : s % 3600 = s := Nat.mod_eq_of_lt h
    simp [format_time, h0, h1]
  · have h0 : 0 < s / 3600 := Nat.div_pos h (by norm_num)
    simp [format_time, h0]

/-- Witness for C7: both branches of the formatting theorem at concrete
inputs 100 (below one hour) and 7200 (above). -/
theorem claim7_witness :
    (100 < 3600 ∧ format_time 100 = pad2 (100 / 60) ++ ":" ++ pad2 (100 % 60)) ∧
    (3600 ≤ 7200 ∧ format_time 7200 =
      pad2 (7200 / 3600) ++ ":" ++ pad2 (7200 % 3600 / 60) ++ ":" ++ pad2 (7200 % 60)) :=
  ⟨⟨by decide, (claim7_format_time 100).1 (by decide)⟩,
   ⟨by decide, (claim7_format_time 7200).2.1 (by decide)⟩⟩

/-! Helper lemmas about the countdown engine. -/

theorem countdownRun_neg (total : Int) (ks : List (Option Char)) (r : Int)
    (p : Bool) (h : r < 0) : countdownRun total ks r p = ([], true) := by
  cases ks with
  | nil => simp [countdownRun, h]
  | cons k rest => simp [countdownRun, h]

theorem countdownRun_cons (total : Int) (k : Option Char)
    (rest : List (Option Char)) (r : Int) (p : Bool) (h : ¬ r < 0) :
    countdownRun total (k :: rest) r p =
      ((r, (if k = some 'q' then !p else p), progress total r) ::
        (countdownRun total rest
          (if (if k = some 'q' then !p else p) then r else r - 1)
          (if k = some 'q' then !p else p)).1,
       (countdownRun total rest
          (if (if k = some 'q' then !p else p) then r else r - 1)
          (if k = some 'q' then !p else p)).2) := by
  simp [countdownRun, h]

theorem countdownRun_cons_none (total : Int) (rest : List (Option Char))
    (r : Int) (h : ¬ r < 0) :
    countdownRun total (none :: rest) r false =
      ((r, false, progress total r) :: (countdownRun total rest (r - 1) false).1,
       (countdownRun total rest (r - 1) false).2) := by
  simp [countdownRun, h]

theorem progress_of_nonpos (t r : Int) (h : ¬ 0 < t) : progress t r = 1 := by
  simp [progress, h]

theorem progress_rem_zero (t : Int) : progress t 0 = 1 := by
  unfold progress
  split
  · rename_i h
    have ht : (t : ℚ) ≠ 0 := by
      have : (0 : ℚ) < (t : ℚ) := by exact_mod_cast h
      exact ne_of_gt this
    field_simp
  · rfl

theorem countdownRun_head_val (total : Int) (ks : List (Option Char)) (r : Int)
    (p : Bool) : ∀ x ∈ (countdownRun total ks r p).1.head?, x.1 = r := by
  cases ks with
  | nil => simp [countdownRun]
  | cons k rest =>
    by_cases h : r < 0
    · simp [countdownRun, h]
    · simp [countdownRun, h]

theorem countdownRun_noPause_exact (total : Int) : ∀ r : Nat,
    countdownRun total (List.replicate (r + 1) none) (r : Int) false =
      (((List.range (r + 1)).map fun i : Nat =>
        ((r : Int) - (i : Int), false, progress total ((r : Int) - (i : Int)))), true) := by
  intro r
  induction r with
  | zero =>
    have hrec : countdownRun total [] ((0 : Int) - 1) false = ([], true) := by
      simp [countdownRun]
    simp [countdownRun, List.replicate, hrec, List.range_succ]
  | succ n ih =>
    have hnn : ¬ ((n + 1 : Nat) : Int) < 0 := by omega
    rw [List.replicate_succ, countdownRun_cons_none total _ _ hnn]
    have hstep : ((n + 1 : Nat) : Int) - 1 = (n : Int) := by push_cast; ring
    rw [hstep, ih]
    have htail : (List.range (n + 1)).map
        ((fun i : Nat => (((n + 1 : Nat) : Int) - (i : Int), false,
          progress total (((n + 1 : Nat) : Int) - (i : Int)))) ∘ Nat.succ) =
        (List.range (n + 1)).map
          (fun i : Nat => ((n : Int) - (i : Int), false,
            progress total ((n : Int) - (i : Int)))) := by
      apply List.map_congr_left
      intro i _
      have hc : ((n + 1 : Nat) : Int) - ((Nat.succ i : Nat) : Int) = (n : Int) - i := by
        push_cast; ring
      simp only [Function.comp]
      rw [hc]
    conv_rhs => rw [List.range_succ_eq_map, List.map_cons, List.map_map]
    rw [htail]
    norm_num

theorem countdownRun_noPause_unfinished (total : Int) : ∀ (m : Nat) (r : Int),
    (m : Int) ≤ r →
    countdownRun total (List.replicate m none) r false =
      (((List.range m).map fun i : Nat =>
        (r - (i : Int), false, progress total (r - (i : Int)))), false) := by
  intro m
  induction m with
  | zero =>
    intro r hr
    have : ¬ r < 0 := by omega
    simp [countdownRun, List.replicate, this]
  | succ n ih =>
    intro r hr
    have hnn : ¬ r < 0 := by omega
    rw [List.replicate_succ, countdownRun_cons_none total _ _ hnn]
    have hrec := ih (r - 1) (by omega)
    rw [hrec]
    have htail : (List.range n).map
        ((fun i : Nat => (r - (i : Int), false, progress total (r - (i : Int)))) ∘
          Nat.succ) =
        (List.range n).map
          (fun i : Nat => (r - 1 - (i : Int), false,
            progress total (r - 1 - (i : Int)))) := by
      apply List.map_congr_left
      intro i _
      have hc : r - ((Nat.succ i : Nat) : Int) = r - 1 - i := by push_cast; ring
      simp only [Function.comp]
      rw [hc]
    conv_rhs => rw [List.range_succ_eq_map, List.map_cons, List.map_map]
    rw [htail]
    norm_num

/-- C3: with total `T ≥ 1` and no key presses, the countdown renders
`T, T-1, …, 0` over `T+1` ticks with progress `(T - r)/T = i/T` at the
`i`-th tick, reports done (returns `False`) only after the `0` tick
(after only `T` ticks it is not yet done), and for `T = 5` the rendered
sequence is `5,4,3,2,1,0` with progress `0, 1/5, 2/5, 3/5, 4/5, 1`. -/
theorem claim3_countdown_sequence : ∀ T : Nat, 1 ≤ T →
    (countdownRun (T : Int) (List.replicate (T + 1) none) (T : Int) false =
      (((List.range (T + 1)).map fun i : Nat =>
        ((T : Int) - (i : Int), false, (i : ℚ) / (T : ℚ))), true)) ∧
    (countdownRun (T : Int) (List.replicate T none) (T : Int) false =
      (((List.range T).map fun i : Nat =>
        ((T : Int) - (i : Int), false, (i : ℚ) / (T : ℚ))), false)) ∧
    countdownRun 5 (List.replicate 6 none) 5 false =
      ([(5, false, 0), (4, false, 1/5), (3, false, 2/5), (2, false, 3/5),
        (1, false, 4/5), (0, false, 1)], true) := by
  intro T hT
  have hTpos : (0 : Int) < (T : Int) := by exact_mod_cast hT
  have hTQ : ((T : Int) : ℚ) ≠ 0 := by
    have : (0 : ℚ) < ((T : Int) : ℚ) := by exact_mod_cast hTpos
    exact ne_of_gt this
  have hprog : ∀ i : Nat, progress (T : Int) ((T : Int) - i) = (i : ℚ) / (T : ℚ) := by
    intro i
    rw [progress, if_pos hTpos]
    push_cast
    field_simp
  refine ⟨?_, ?_, ?_⟩
  · rw [countdownRun_noPause_exact (T : Int) T]
    congr 1
    apply List.map_congr_left
    intro i _
    rw [hprog i]
  · rw [countdownRun_noPause_unfinished (T : Int) T (T : Int) (le_refl _)]
    congr 1
    apply List.map_congr_left
    intro i _
    rw [hprog i]
  · simp [countdownRun, progress, List.replicate]
    norm_num

/-- Witness for C3 at `T = 5`. -/
theorem claim3_witness : 1 ≤ 5 ∧
    countdownRun 5 (List.replicate 6 none) 5 false =
      ([(5, false, 0), (4, false, 1/5), (3, false, 2/5), (2, false, 3/5),
        (1, false, 4/5), (0, false, 1)], true) :=
  ⟨by decide, (claim3_countdown_sequence 5 (by decide)).2.2⟩

/-- C8: with `total_seconds = 0` the progress fraction is the guarded
value `1` (no division is performed: the division branch is taken only
under `total > 0`) and the engine completes after a single tick, with
any further scheduled ticks unused. -/
theorem claim8_zero_total :
    (∀ ks : List (Option Char),
      countdownRun 0 (none :: ks) 0 false = ([(0, false, 1)], true)) ∧
    (∀ r : Int, progress 0 r = 1) ∧
    (∀ t r : Int, ¬ 0 < t → progress t r = 1) ∧
    (∀ t r : Int, 0 < t → progress t r = ((t : ℚ) - (r : ℚ)) / (t : ℚ)) := by
  refine ⟨fun ks => ?_, fun r => ?_, fun t r h => ?_, fun t r h => ?_⟩
  · have hrec : countdownRun 0 ks ((0 : Int) - 1) false = ([], true) :=
      countdownRun_neg 0 ks _ false (by norm_num)
    rw [countdownRun_cons_none 0 ks 0 (by norm_num), hrec]
    simp [progress]
  · simp [progress]
  · simp [progress, h]
  · simp [progress, h]

/-- Witness for C8: the non-positive-total branch of `progress` at a
concrete negative total. -/
theorem claim8_witness : ¬ (0 : Int) < -2 ∧ progress (-2) 7 = 1 :=
  ⟨by decide, claim8_zero_total.2.2.1 (-2) 7 (by decide)⟩

theorem countdownRun_inv (total : Int) : ∀ (ks : List (Option Char)) (r : Int)
    (p : Bool),
    (∀ x ∈ (countdownRun total ks r p).1, 0 ≤ x.1 ∧ x.1 ≤ r) ∧
    List.Chain' stepRel (countdownRun total ks r p).1 ∧
    ((countdownRun total ks r p).2 = true → 0 ≤ r →
      (countdownRun total ks r p).1.getLast? = some (0, false, progress total 0)) := by
  intro ks
  induction ks with
  | nil =>
    intro r p
    refine ⟨by simp [countdownRun], by simp [countdownRun], ?_⟩
    intro hdone hr
    simp [countdownRun] at hdone
    omega
  | cons k rest ih =>
    intro r p
    by_cases hneg : r < 0
    · rw [countdownRun_neg total _ r p hneg]
      refine ⟨by simp, by simp, ?_⟩
      intro _ hr
      omega
    · rw [countdownRun_cons total k rest r p hneg]
      set p' := if k = some 'q' then !p else p with hp'
      set r' := if p' then r else r - 1 with hr'
      have hr'le : r' ≤ r := by
        rw [hr']
        split <;> omega
      obtain ⟨ihb, ihc, ihl⟩ := ih r' p'
      refine ⟨?_, ?_, ?_⟩
      · intro x hx
        rcases List.mem_cons.mp hx with hx | hx
        · rw [hx]
          exact ⟨by omega, le_refl r⟩
        · have := ihb x hx
          exact ⟨this.1, le_trans this.2 hr'le⟩
      · refine List.chain'_cons'.mpr ⟨?_, ihc⟩
        intro b hb
        have hbv : b.1 = r' := countdownRun_head_val total rest r' p' b hb
        show b.1 = if p' then r else r - 1
        rw [hbv, hr']
      · intro hdone hr
        dsimp only at hdone ⊢
        by_cases hr'0 : 0 ≤ r'
        · have hlast := ihl hdone hr'0
          rcases htl : (countdownRun total rest r' p').1 with _ | ⟨b, bs⟩
          · rw [htl] at hlast
            simp at hlast
          · rw [htl] at hlast
            rw [List.getLast?_cons_cons]
            exact hlast
        · have hp'f : p' = false := by
            by_contra hp't
            rw [Bool.not_eq_false] at hp't
            rw [hr', if_pos hp't] at hr'0
            omega
          have hrz : r = 0 := by
            rw [hr', hp'f] at hr'0
            simp at hr'0
            omega
          have htl : countdownRun total rest r' p' = ([], true) := by
            apply countdownRun_neg
            omega
          rw [htl]
          rw [hrz, hp'f]
          simp

/-- C10: starting from `remaining = total ≥ 0`, every rendered frame
satisfies `0 ≤ remaining ≤ total` (so the displayed value is never
negative), consecutive frames decrement `remaining` by exactly 1 when
not paused and keep it when paused, and the loop reports done only
after a final frame that rendered `remaining = 0` unpaused (the first
time `remaining` would go below 0). -/
theorem claim10_countdown_invariant : ∀ (total : Nat) (ks : List (Option Char)),
    (∀ x ∈ (countdownRun (total : Int) ks (total : Int) false).1,
      0 ≤ x.1 ∧ x.1 ≤ (total : Int)) ∧
    List.Chain' stepRel (countdownRun (total : Int) ks (total : Int) false).1 ∧
    ((countdownRun (total : Int) ks (total : Int) false).2 = true →
      (countdownRun (total : Int) ks (total : Int) false).1.getLast? =
        some (0, false, 1)) := by
  intro total ks
  obtain ⟨h1, h2, h3⟩ := countdownRun_inv (total : Int) ks (total : Int) false
  refine ⟨h1, h2, fun hd => ?_⟩
  have := h3 hd (by positivity)
  rw [progress_rem_zero] at this
  exact this

/-- Witness for C10: on the concrete run `total = 1`, no keys over two
ticks, the loop completes and its last rendered frame is
`(0, unpaused, progress 1)`. -/
theorem claim10_witness :
    (countdownRun 1 [none, none] 1 false).2 = true ∧
    (countdownRun 1 [none, none] 1 false).1.getLast? = some (0, false, 1) := by
  constructor
  · decide
  · have h := (claim10_countdown_invariant 1 [none, none]).2.2 (by decide)
    simpa using h

/-- C4: `'q'` while running freezes the displayed elapsed value (pause
records the anchor and stops updating `elapsed`); `'q'` while paused
shifts `start_time` forward by the pause duration, so the recomputed
elapsed value `pause_start - start_time` equals the value frozen at the
pause instant; `'r'` resets `start_time` to now, `elapsed` to 0 and
clears `paused`; while running `elapsed = now - start_time`; and the
spec's concrete scenario (wait 2, pause, wait 3, resume, wait 1)
displays `2, 2, 2, 2, 3`. -/
theorem claim4_stopwatch_pause : ∀ (s : SwState) (key : Option Char) (now : Int),
    (s.paused = false →
      (stopwatchTick s (some 'q') now).paused = true ∧
      (stopwatchTick s (some 'q') now).elapsed = s.elapsed ∧
      (stopwatchTick s (some 'q') now).pauseStart = now ∧
      (stopwatchTick s (some 'q') now).startTime = s.startTime) ∧
    (s.paused = true → stopwatchTick s none now = s) ∧
    (s.paused = true →
      (stopwatchTick s (some 'q') now).paused = false ∧
      (stopwatchTick s (some 'q') now).startTime =
        s.startTime + (now - s.pauseStart) ∧
      (stopwatchTick s (some 'q') now).elapsed = s.pauseStart - s.startTime) ∧
    (stopwatchTick s (some 'r') now = ⟨now, 0, false, s.pauseStart⟩) ∧
    (s.paused = false → key = none →
      (stopwatchTick s key now).elapsed = now - s.startTime ∧
      (stopwatchTick s key now).startTime = s.startTime) ∧
    swRun ⟨0, 0, false, 0⟩
      [(none, 2), (some 'q', 2), (none, 5), (some 'q', 5), (none, 6)] =
      [2, 2, 2, 2, 3] := by
  intro s key now
  refine ⟨fun h => ?_, fun h => ?_, fun h => ?_, ?_, fun h hk => ?_, by decide⟩
  · simp [stopwatchTick, h]
  · simp [stopwatchTick, h]
  · simp [stopwatchTick, h]
    ring
  · simp [stopwatchTick]
  · subst hk
    simp [stopwatchTick, h]

/-- Witness for C4: a paused state is left unchanged by a keyless
tick. -/
theorem claim4_witness :
    stopwatchTick ⟨0, 2, true, 2⟩ none 10 = ⟨0, 2, true, 2⟩ :=
  (claim4_stopwatch_pause ⟨0, 2, true, 2⟩ none 10).2.1 rfl

/-- C5: a completed (non-interrupted) Work countdown is followed, in
order, by the bell (when enabled), the 2-second delay, and the Break
countdown; a completed Break is followed by the bell (when enabled),
the session increment, and a restarted Work countdown; an interrupted
countdown ends the whole loop at once, and an interrupt during Work
produces no Break countdown call at all (its count is 0); the
`work=1, break=1` scenario produces exactly the claimed trace with the
session counter reaching 2 and Work restarting as Session 2. -/
theorem claim5_pomodoro_order : ∀ (w bk : Int) (bell : Bool) (s : Nat)
    (rest : List Bool),
    (pomodoroRun w bk bell s (false :: false :: rest) =
      ([.clear, .countdownCall s false (w * 60) false] ++ bellEvts bell ++
        [.sleep2] ++ ([.clear, .countdownCall s true (bk * 60) false] ++
          bellEvts bell ++ [.sleep2] ++ (pomodoroRun w bk bell (s + 1) rest).1),
       (pomodoroRun w bk bell (s + 1) rest).2)) ∧
    (pomodoroRun w bk bell s (true :: rest) =
      ([.clear, .countdownCall s false (w * 60) true], s)) ∧
    ((pomodoroRun w bk bell s (true :: rest)).1.countP isBreakCall = 0) ∧
    (pomodoroRun w bk bell s (false :: true :: rest) =
      ([.clear, .countdownCall s false (w * 60) false] ++ bellEvts bell ++
        [.sleep2] ++ [.clear, .countdownCall s true (bk * 60) true], s)) ∧
    pomodoroRun 1 1 true 1 [false, false] =
      ([.clear, .countdownCall 1 false 60 false, .bell, .sleep2,
        .clear, .countdownCall 1 true 60 false, .bell, .sleep2], 2) ∧
    pomodoroRun 1 1 true 1 [false, false, true] =
      ([.clear, .countdownCall 1 false 60 false, .bell, .sleep2,
        .clear, .countdownCall 1 true 60 false, .bell, .sleep2,
        .clear, .countdownCall 2 false 60 true], 2) := by
  intro w bk bell s rest
  have hwork : pomodoroRun w bk bell s (true :: rest) =
      ([.clear, .countdownCall s false (w * 60) true], s) := by
    cases rest with
    | nil => simp [pomodoroRun]
    | cons a l => simp [pomodoroRun]
  refine ⟨by simp [pomodoroRun], hwork, ?_, by simp [pomodoroRun], by decide,
    by decide⟩
  rw [hwork]
  simp [isBreakCall]

/-- C2 (code bug): in focus mode while running, a stopwatch frame
prints 6 terminal lines but the loop always moves the cursor up
`DISPLAY_LINES_WITH_LABEL = 7` lines — one more than was printed — so
the frame drifts; in every other mode/variant the printed count equals
the move-up count (clock: 5/7 by focus; countdown: 8 focus / 9 normal;
stopwatch non-focus and focus-paused: 7). -/
theorem claim2_frame_lines :
    stopwatchFrameNewlines true false = 6 ∧
    stopwatchLinesToMove = 7 ∧
    stopwatchFrameNewlines true false + 1 = stopwatchLinesToMove ∧
    (∀ p, stopwatchFrameNewlines false p = stopwatchLinesToMove) ∧
    stopwatchFrameNewlines true true = stopwatchLinesToMove ∧
    (∀ f, clockFrameNewlines f = clockLinesToMove f) ∧
    (∀ f p, countdownFrameNewlines f p = countdownLinesToMove f) := by
  decide

/-- C1 (counterexample): a malformed `--timer` argument (`"abc"`)
prints a one-line error and runs no mode loop, but the process exits
with code 0, not 1 — `timer_mode` returns after printing and `main`
falls through without `sys.exit(1)`. -/
theorem claim1_counterexample :
    mainModel ⟨false, false, false, false, false, false, none, some "abc".toList⟩ =
      ⟨0, true, none⟩ ∧
    ((mainModel ⟨false, false, false, false, false, false, none,
      some "abc".toList⟩).exitCode == 1) = false := by
  decide

/-- C1 (amended): conflicting `--white`/`--black` and an invalid truthy
`--pomodoro` argument (malformed or non-positive minutes) print a
one-line error, run no mode loop and exit 1; a truthy `--timer`
argument that is malformed or parses to a non-positive duration prints
a one-line error and runs no mode loop but exits 0; an empty `--timer`
string is falsy and falls through to clock mode. -/
theorem claim1_amended_validation : ∀ (a : ArgsModel) (t : Int),
    ((a.white && a.black) = true → mainModel a = ⟨1, true, none⟩) ∧
    ((a.white && a.black) = false → truthy a.pomodoro = true →
      parsePomodoroArg (a.pomodoro.getD []) = none →
      mainModel a = ⟨1, true, none⟩) ∧
    ((a.white && a.black) = false → truthy a.pomodoro = false →
      a.stopwatch = false → truthy a.timer = true →
      parse_duration (a.timer.getD []) = none →
      mainModel a = ⟨0, true, none⟩) ∧
    ((a.white && a.black) = false → truthy a.pomodoro = false →
      a.stopwatch = false → truthy a.timer = true →
      parse_duration (a.timer.getD []) = some t → t ≤ 0 →
      mainModel a = ⟨0, true, none⟩) ∧
    ((a.white && a.black) = false → truthy a.pomodoro = false →
      a.stopwatch = false → a.timer = some [] →
      mainModel a = ⟨0, false, some .clock⟩) := by
  intro a t
  refine ⟨fun h1 => ?_, fun h1 h2 h3 => ?_, fun h1 h2 h3 h4 h5 => ?_,
    fun h1 h2 h3 h4 h5 h6 => ?_, fun h1 h2 h3 h4 => ?_⟩
  · simp [mainModel, h1]
  · simp [mainModel, h1, h2, h3]
  · simp [mainModel, h1, h2, h3, h4, h5]
  · simp [mainModel, h1, h2, h3, h4, h5, h6]
  · have h5 : truthy a.timer = false := by rw [h4]; rfl
    simp [mainModel, h1, h2, h3, h5]

/-- Witness for C1 (amended), one concrete input per branch:
conflicting color flags; `--pomodoro 0,5`; `--timer 1:2:3:4` (four
parts); `--timer 0` (non-positive); `--timer ""` (falsy, clock runs). -/
theorem claim1_witness :
    mainModel ⟨false, false, true, true, false, false, none, none⟩ =
      ⟨1, true, none⟩ ∧
    mainModel ⟨false, false, false, false, false, false, some "0,5".toList, none⟩ =
      ⟨1, true, none⟩ ∧
    mainModel ⟨false, false, false, false, false, false, none,
      some "1:2:3:4".toList⟩ = ⟨0, true, none⟩ ∧
    mainModel ⟨false, false, false, false, false, false, none,
      some "0".toList⟩ = ⟨0, true, none⟩ ∧
    mainModel ⟨false, false, false, false, false, false, none, some []⟩ =
      ⟨0, false, some .clock⟩ :=
  ⟨(claim1_amended_validation _ 0).1 rfl,
   (claim1_amended_validation _ 0).2.1 rfl rfl (by decide),
   (claim1_amended_validation _ 0).2.2.1 rfl rfl rfl rfl (by decide),
   (claim1_amended_validation _ 0).2.2.2.1 rfl rfl rfl rfl (by decide) (by decide),
   (claim1_amended_validation _ 0).2.2.2.2 rfl rfl rfl rfl⟩

/-! Helper lemmas about the glyph renderer. -/

theorem segTables_rowsEqual : ∀ (bold : Bool), ∀ p ∈ segmentsFor bold,
    rowsEqualWidth p.2 := by decide

theorem lookupSeg_rowsEqual (bold : Bool) (c : Char) (g : Glyph)
    (h : lookupSeg (segmentsFor bold) c = some g) : rowsEqualWidth g := by
  unfold lookupSeg at h
  rcases hf : (segmentsFor bold).find? (fun p => p.1 == c) with _ | ⟨p⟩
  · rw [hf] at h
    simp at h
  · rw [hf] at h
    simp at h
    have hp : p ∈ segmentsFor bold := List.mem_of_find?_eq_some hf
    rw [← h]
    exact segTables_rowsEqual bold p hp

theorem renderStep_widths (bold : Bool) (acc : Glyph) (c : Char)
    (hacc : rowsEqualWidth acc) :
    rowsEqualWidth (renderStep (segmentsFor bold) acc c) ∧
    (renderStep (segmentsFor bold) acc c).r0.length =
      acc.r0.length + glyphContribution (segmentsFor bold) c := by
  unfold renderStep glyphContribution
  rcases h : lookupSeg (segmentsFor bold) c with _ | ⟨g⟩
  · exact ⟨hacc, by simp⟩
  · obtain ⟨hg1, hg2, hg3⟩ := lookupSeg_rowsEqual bold c g h
    obtain ⟨ha1, ha2, ha3⟩ := hacc
    refine ⟨⟨?_, ?_, ?_⟩, ?_⟩ <;>
      simp only [String.length_append, show (" " : String).length = 1 from rfl] <;>
      omega

theorem foldl_renderStep_widths (bold : Bool) : ∀ (text : List Char) (acc : Glyph),
    rowsEqualWidth acc →
    rowsEqualWidth (text.foldl (renderStep (segmentsFor bold)) acc) ∧
    (text.foldl (renderStep (segmentsFor bold)) acc).r0.length =
      acc.r0.length + (text.map (glyphContribution (segmentsFor bold))).sum := by
  intro text
  induction text with
  | nil => intro acc hacc; exact ⟨hacc, by simp⟩
  | cons c cs ih =>
    intro acc hacc
    obtain ⟨hstepEq, hstepLen⟩ := renderStep_widths bold acc c hacc
    obtain ⟨hEq, hLen⟩ := ih (renderStep (segmentsFor bold) acc c) hstepEq
    refine ⟨hEq, ?_⟩
    rw [List.foldl_cons] at *
    rw [hLen, hstepLen, List.map_cons, List.sum_cons]
    omega

theorem foldl_renderStep_filter (t : List (Char × Glyph)) :
    ∀ (text : List Char) (acc : Glyph),
      (text.filter fun c => (lookupSeg t c).isSome).foldl (renderStep t) acc =
        text.foldl (renderStep t) acc := by
  intro text
  induction text with
  | nil => intro acc; rfl
  | cons c cs ih =>
    intro acc
    by_cases h : (lookupSeg t c).isSome
    · simp [List.filter_cons, h, ih]
    · have hstep : renderStep t acc c = acc := by
        unfold renderStep
        rcases hl : lookupSeg t c with _ | ⟨g⟩
        · rfl
        · rw [hl] at h
          simp at h
      simp [List.filter_cons, h, ih, hstep]

/-- C9: the rendered glyph block always has exactly 4 rows (the
`Glyph` record) of equal width; the width of every row is the sum over
the input characters of (glyph width + 1 separator) for known
characters and 0 for unknown ones; unknown characters are silently
skipped (rendering equals rendering of the known-character
subsequence), and in particular rendering `"1x"` equals rendering
`"1"` in both styles. -/
theorem claim9_glyph_render : ∀ (bold : Bool) (text : List Char),
    rowsEqualWidth (renderGlyphs bold text) ∧
    (renderGlyphs bold text).r0.length =
      (text.map (glyphContribution (segmentsFor bold))).sum ∧
    renderGlyphs bold text =
      renderGlyphs bold
        (text.filter fun c => (lookupSeg (segmentsFor bold) c).isSome) ∧
    renderGlyphs bold "1x".toList = renderGlyphs bold "1".toList := by
  intro bold text
  obtain ⟨hEq, hLen⟩ :=
    foldl_renderStep_widths bold text ⟨"", "", "", ""⟩ ⟨rfl, rfl, rfl⟩
  refine ⟨hEq, by simpa using hLen, ?_, ?_⟩
  · exact (foldl_renderStep_filter (segmentsFor bold) text ⟨"", "", "", ""⟩).symm
  · cases bold <;> decide

end CliClock
